import Mathlib

/-!
Shallow embedding of `src/text_agent.rs` from `bevy_egui`: the browser
text-input agent that bridges DOM keyboard/IME/touch events into egui
input events.  DOM-side state (the input element's value, hidden flag,
keyboard event fields) is passed explicitly; machine strings are Lean
`String`s with Rust's `len()` modelled as UTF-8 byte size.
-/

namespace TextAgent

/-- egui key identifiers, as matched by `translate_key` in the source. -/
inductive Key where
  | ArrowDown | ArrowLeft | ArrowRight | ArrowUp
  | Escape | Tab | Backspace | Enter | Space
  | Insert | Delete | Home | End | PageUp | PageDown
  | Num0 | Num1 | Num2 | Num3 | Num4 | Num5 | Num6 | Num7 | Num8 | Num9
  | A | B | C | D | E | F | G | H | I | J | K | L | M
  | N | O | P | Q | R | S | T | U | V | W | X | Y | Z
  deriving DecidableEq, Repr

/-- `egui::Modifiers` as built by `modifiers_from_event`. -/
structure Modifiers where
  alt : Bool
  ctrl : Bool
  shift : Bool
  mac_cmd : Bool
  command : Bool
  deriving DecidableEq, Repr

/-- The subset of `egui::Event` this module produces. -/
inductive Event where
  | text (s : String)
  | key (k : Key) (physical_key : Option Key) (pressed : Bool)
        (modifiers : Modifiers) (isRepeat : Bool)
  deriving DecidableEq, Repr

/-- `TouchWebEvent` from the source. -/
inductive TouchWebEvent where
  | Fired
  deriving DecidableEq, Repr

/-- Items sent on the `TextAgentChannel`:
`(Option<egui::Event>, Option<TouchWebEvent>)`. -/
def ChannelItem := Option Event × Option TouchWebEvent

instance : DecidableEq ChannelItem := by
  unfold ChannelItem; infer_instance

/-- `translate_key` from the source: maps a DOM key-name string to an
egui key, or `none` for unrecognized names. -/
def translate_key (key : String) : Option Key :=
  match key with
  | "ArrowDown" => some Key.ArrowDown
  | "ArrowLeft" => some Key.ArrowLeft
  | "ArrowRight" => some Key.ArrowRight
  | "ArrowUp" => some Key.ArrowUp
  | "Esc" | "Escape" => some Key.Escape
  | "Tab" => some Key.Tab
  | "Backspace" => some Key.Backspace
  | "Enter" => some Key.Enter
  | "Space" | " " => some Key.Space
  | "Help" | "Insert" => some Key.Insert
  | "Delete" => some Key.Delete
  | "Home" => some Key.Home
  | "End" => some Key.End
  | "PageUp" => some Key.PageUp
  | "PageDown" => some Key.PageDown
  | "0" => some Key.Num0
  | "1" => some Key.Num1
  | "2" => some Key.Num2
  | "3" => some Key.Num3
  | "4" => some Key.Num4
  | "5" => some Key.Num5
  | "6" => some Key.Num6
  | "7" => some Key.Num7
  | "8" => some Key.Num8
  | "9" => some Key.Num9
  | "a" | "A" => some Key.A
  | "b" | "B" => some Key.B
  | "c" | "C" => some Key.C
  | "d" | "D" => some Key.D
  | "e" | "E" => some Key.E
  | "f" | "F" => some Key.F
  | "g" | "G" => some Key.G
  | "h" | "H" => some Key.H
  | "i" | "I" => some Key.I
  | "j" | "J" => some Key.J
  | "k" | "K" => some Key.K
  | "l" | "L" => some Key.L
  | "m" | "M" => some Key.M
  | "n" | "N" => some Key.N
  | "o" | "O" => some Key.O
  | "p" | "P" => some Key.P
  | "q" | "Q" => some Key.Q
  | "r" | "R" => some Key.R
  | "s" | "S" => some Key.S
  | "t" | "T" => some Key.T
  | "u" | "U" => some Key.U
  | "v" | "V" => some Key.V
  | "w" | "W" => some Key.W
  | "x" | "X" => some Key.X
  | "y" | "Y" => some Key.Y
  | "z" | "Z" => some Key.Z
  | _ => none

/-- The complete list of key-name strings `translate_key` recognizes
(navigation, editing including space, digits, letters in both cases). -/
def supportedKeyNames : List String :=
  ["ArrowDown", "ArrowLeft", "ArrowRight", "ArrowUp",
   "Esc", "Escape", "Tab", "Backspace", "Enter", "Space", " ",
   "Help", "Insert", "Delete", "Home", "End", "PageUp", "PageDown",
   "0", "1", "2", "3", "4", "5", "6", "7", "8", "9",
   "a", "A", "b", "B", "c", "C", "d", "D", "e", "E", "f", "F",
   "g", "G", "h", "H", "i", "I", "j", "J", "k", "K", "l", "L",
   "m", "M", "n", "N", "o", "O", "p", "P", "q", "Q", "r", "R",
   "s", "S", "t", "T", "u", "U", "v", "V", "w", "W", "x", "X",
   "y", "Y", "z", "Z"]

set_option maxHeartbeats 1600000 in
lemma translate_key_isSome_mem (k : String) (h : (translate_key k).isSome) :
    k ∈ supportedKeyNames := by
  unfold translate_key at h
  split at h
  all_goals first
    | exact absurd h (by decide)
    | decide

example : translate_key "a" = some Key.A := by decide
example : translate_key "Unidentified" = none := by decide

/-- The `matches!` arm of `should_ignore_key`: the named
navigation/editing/modifier key names. -/
def is_named_ignore_key (key : String) : Bool :=
  match key with
  | "Alt" | "ArrowDown" | "ArrowLeft" | "ArrowRight" | "ArrowUp"
  | "Backspace" | "CapsLock" | "ContextMenu" | "Control" | "Delete"
  | "End" | "Enter" | "Esc" | "Escape" | "Help" | "Home" | "Insert"
  | "Meta" | "NumLock" | "PageDown" | "PageUp" | "Pause" | "ScrollLock"
  | "Shift" | "Tab" => true
  | _ => false

/-- `key.starts_with('F')` in Rust: the first character is `F`. -/
def starts_with_F (key : String) : Bool :=
  key.data.head? == some 'F'

/-- `should_ignore_key` from the source. `key.len() > 1` in Rust is the
UTF-8 byte length, modelled by `String.utf8ByteSize`. -/
def should_ignore_key (key : String) : Bool :=
  let is_function_key := starts_with_F key && decide (1 < key.utf8ByteSize)
  is_function_key || is_named_ignore_key key

/-- The named (non-function-key) part of the ignore list, as a list. -/
def namedIgnoreKeys : List String :=
  ["Alt", "ArrowDown", "ArrowLeft", "ArrowRight", "ArrowUp",
   "Backspace", "CapsLock", "ContextMenu", "Control", "Delete",
   "End", "Enter", "Esc", "Escape", "Help", "Home", "Insert",
   "Meta", "NumLock", "PageDown", "PageUp", "Pause", "ScrollLock",
   "Shift", "Tab"]

set_option maxHeartbeats 1600000 in
lemma is_named_ignore_key_mem (k : String) (h : is_named_ignore_key k = true) :
    k ∈ namedIgnoreKeys := by
  unfold is_named_ignore_key at h
  split at h
  all_goals first
    | exact absurd h (by decide)
    | decide

lemma mem_is_named_ignore_key (k : String) (h : k ∈ namedIgnoreKeys) :
    is_named_ignore_key k = true := by
  fin_cases h <;> decide

/-- The DOM `<input>` agent element state the `on_input` closure touches. -/
structure InputElement where
  value : String
  deriving DecidableEq, Repr

/-- The `on_input` closure installed by `install_text_agent`: reads the
element's value; if it is non-empty and the composing flag is off, the
value is cleared and, when the value was exactly one byte long, a
`Text` event is sent on the channel.  Returns the updated element and
the list of sent channel items. -/
def on_input (is_composing : Bool) (input : InputElement) :
    InputElement × List ChannelItem :=
  let text := input.value
  if !text.isEmpty && !is_composing then
    let input := { input with value := "" }
    if text.utf8ByteSize == 1 then
      (input, [(some (Event.text text), none)])
    else
      (input, [])
  else
    (input, [])

/-- The fields of `web_sys::KeyboardEvent` the source reads. -/
structure KeyboardEvent where
  key : String
  key_code : Nat
  is_composing : Bool
  alt_key : Bool
  ctrl_key : Bool
  shift_key : Bool
  meta_key : Bool
  deriving DecidableEq, Repr

/-- `modifiers_from_event` from the source: `command = ctrl || meta`. -/
def modifiers_from_event (event : KeyboardEvent) : Modifiers :=
  { alt := event.alt_key
    ctrl := event.ctrl_key
    shift := event.shift_key
    mac_cmd := event.meta_key
    command := event.ctrl_key || event.meta_key }

/-- The keydown closure installed by `install_document_events`:
composition events (flag or legacy code 229) are discarded; otherwise a
translated key-press is sent, and independently a `Text` event when no
ctrl/command modifier is held, the key is not in the ignore list, and
the agent element is hidden.  Returns the channel items sent, in send
order. -/
def on_keydown (event : KeyboardEvent) (agent_hidden : Bool) :
    List ChannelItem :=
  if event.is_composing || event.key_code == 229 then
    []
  else
    let modifiers := modifiers_from_event event
    let key := event.key
    let key_sends : List ChannelItem :=
      match translate_key key with
      | some k => [(some (Event.key k (some k) true modifiers false), none)]
      | none => []
    let text_sends : List ChannelItem :=
      if !modifiers.ctrl && !modifiers.command && !should_ignore_key key
          && agent_hidden then
        [(some (Event.text key), none)]
      else
        []
    key_sends ++ text_sends

/-- The unbounded FIFO channel backing `TextAgentChannel`, as the list
of queued items, oldest first. -/
def Channel := List ChannelItem

/-- `sender.send`: appends at the back of the queue; never blocks, never
drops. -/
def Channel.send (ch : List ChannelItem) (item : ChannelItem) :
    List ChannelItem :=
  ch ++ [item]

/-- Draining loop (`while let Ok(r) = receiver.try_recv()`): returns the
received items in order together with the emptied queue. -/
def Channel.drainAll (ch : List ChannelItem) :
    List ChannelItem × List ChannelItem :=
  (ch, [])

/-- Per-context egui input state touched by `propagate_text`. -/
structure EguiContext where
  focused : Bool
  events : List Event
  deriving DecidableEq, Repr

/-- The events `propagate_text` pushes for a drained queue: the first
component of each item, when present. -/
def drained_events (queue : List ChannelItem) : List Event :=
  queue.filterMap Prod.fst

/-- `propagate_text`: walks the contexts in order; at the first focused
one it drains the whole channel, pushes every event onto that context's
input events, and stops (`break`).  Returns the updated contexts, the
remaining channel queue, and whether a redraw was requested. -/
def propagate_text : List EguiContext → List ChannelItem →
    List EguiContext × List ChannelItem × Bool
  | [], channel => ([], channel, false)
  | c :: cs, channel =>
    if c.focused then
      ({ c with events := c.events ++ drained_events channel } :: cs,
       [], !channel.isEmpty)
    else
      let rest := propagate_text cs channel
      (c :: rest.1, rest.2.1, rest.2.2)

/-- `egui::Pos2` with exact rational coordinates. -/
structure Pos2 where
  x : ℚ
  y : ℚ
  deriving DecidableEq, Repr

/-- `keyboard_fraction` constant from `update_text_agent` (0.4). -/
def keyboard_fraction : ℚ := 4 / 10

/-- `target_rel` constant from `update_text_agent` (0.3). -/
def target_rel : ℚ := 3 / 10

/-- The canvas-shift delta of `update_text_agent`:
`(target_rel - current_rel).max(-keyboard_fraction)`. -/
def canvas_shift_delta (current_rel : ℚ) : ℚ :=
  max (target_rel - current_rel) (-keyboard_fraction)

/-- The percentage written into the canvas `top` style:
`(delta * 100.0).round()`. -/
def canvas_shift_percent (current_rel : ℚ) : ℤ :=
  round (canvas_shift_delta current_rel * 100)

/-- Outcome of `update_text_agent` on the canvas `top` style property. -/
inductive TopStyle where
  | unchanged
  | percent (p : ℤ)
  deriving DecidableEq, Repr

/-- `update_text_agent`: when editing with the agent currently hidden
and a touch position present, and the touch sits below the keyboard
fraction on a mobile device, the canvas `top` is set to the computed
shift percentage; when not editing, the canvas `top` is reset to 0%. -/
def update_text_agent (editing_text : Bool) (maybe_touch_pos : Option Pos2)
    (input_hidden : Bool) (window_height : ℚ) (is_mobile : Option Bool) :
    TopStyle :=
  if editing_text then
    match input_hidden, maybe_touch_pos with
    | true, some latest_touch_pos =>
      let current_rel := latest_touch_pos.y / window_height
      if current_rel > keyboard_fraction ∧ is_mobile = some true then
        TopStyle.percent (canvas_shift_percent current_rel)
      else
        TopStyle.unchanged
    | _, _ => TopStyle.unchanged
  else
    TopStyle.percent 0

/-- Canvas geometry read by `move_text_cursor`. -/
structure CanvasGeometry where
  scroll_top : ℚ
  offset_top : ℚ
  scroll_left : ℚ
  offset_left : ℚ
  client_width : ℚ
  client_height : ℚ
  deriving DecidableEq, Repr

/-- The agent element's bounding client rect, as read by
`move_text_cursor`. -/
structure BoundingRect where
  width : ℚ
  height : ℚ
  deriving DecidableEq, Repr

/-- `move_text_cursor`: on non-mobile devices with an IME cursor rect,
places the agent at the cursor, clamping top to
`client_height - bounding_rect.height` and left to
`client_width - bounding_rect.width`; on mobile (or unknown) devices it
pins the agent at the origin.  Returns the applied `(top, left)` in
pixels, or `none` when the style is left unchanged. -/
def move_text_cursor (is_mobile : Option Bool) (ime : Option Pos2)
    (canvas : CanvasGeometry) (bounding_rect : BoundingRect) :
    Option (ℚ × ℚ) :=
  if is_mobile = some false then
    ime.map fun cursor =>
      let y := min (cursor.y + (canvas.scroll_top + canvas.offset_top))
        (canvas.client_height - bounding_rect.height)
      let x := min (cursor.x + (canvas.scroll_left + canvas.offset_left))
        (canvas.client_width - bounding_rect.width)
      (y, x)
  else
    some (0, 0)

/-- Lowercase/uppercase spellings of the letter keys a–z. -/
def letterCasePairs : List (String × String) :=
  [("a", "A"), ("b", "B"), ("c", "C"), ("d", "D"), ("e", "E"), ("f", "F"),
   ("g", "G"), ("h", "H"), ("i", "I"), ("j", "J"), ("k", "K"), ("l", "L"),
   ("m", "M"), ("n", "N"), ("o", "O"), ("p", "P"), ("q", "Q"), ("r", "R"),
   ("s", "S"), ("t", "T"), ("u", "U"), ("v", "V"), ("w", "W"), ("x", "X"),
   ("y", "Y"), ("z", "Z")]

/-- The ignore list exactly as the claim states it: F1 through F12 plus
the named navigation/editing/modifier keys. -/
def claimedIgnoreList : List String :=
  ["F1", "F2", "F3", "F4", "F5", "F6", "F7", "F8", "F9", "F10", "F11",
   "F12"] ++ namedIgnoreKeys

lemma propagate_text_first_focused (pre : List EguiContext) (c : EguiContext)
    (post : List EguiContext) (queue : List ChannelItem)
    (hpre : ∀ x ∈ pre, x.focused = false) (hc : c.focused = true) :
    propagate_text (pre ++ c :: post) queue =
      (pre ++ { c with events := c.events ++ drained_events queue } :: post,
       [], !queue.isEmpty) := by
  induction pre with
  | nil => simp [propagate_text, hc]
  | cons p ps ih =>
    have hp : p.focused = false := hpre p (by simp)
    have := ih (fun x hx => hpre x (by simp [hx]))
    simp [propagate_text, hp, this]

lemma propagate_text_no_focus (cs : List EguiContext)
    (queue : List ChannelItem) (h : ∀ x ∈ cs, x.focused = false) :
    propagate_text cs queue = (cs, queue, false) := by
  induction cs with
  | nil => rfl
  | cons p ps ih =>
    have hp : p.focused = false := h p (by simp)
    simp [propagate_text, hp, ih (fun x hx => h x (by simp [hx]))]

lemma sends_foldl (es acc : List ChannelItem) :
    es.foldl Channel.send acc = acc ++ es := by
  induction es generalizing acc with
  | nil => simp
  | cons e es ih => simp [Channel.send, ih]

/-- C2: a keydown carrying key `"a"` with no modifiers: with the agent
hidden it enqueues exactly the key-press for `A` followed by
`Text "a"`; with the agent visible, only the key-press. -/
theorem claim_C2_keydown_a (event : KeyboardEvent)
    (hkey : event.key = "a") (halt : event.alt_key = false)
    (hctrl : event.ctrl_key = false) (hshift : event.shift_key = false)
    (hmeta : event.meta_key = false) (hcomp : event.is_composing = false)
    (hcode : event.key_code ≠ 229) :
    on_keydown event true =
      [(some (Event.key Key.A (some Key.A) true
        ⟨false, false, false, false, false⟩ false), none),
       (some (Event.text "a"), none)] ∧
    on_keydown event false =
      [(some (Event.key Key.A (some Key.A) true
        ⟨false, false, false, false, false⟩ false), none)] := by
  obtain ⟨key, code, comp, af, cf, sf, mf⟩ := event
  simp only at hkey halt hctrl hshift hmeta hcomp
  subst hkey halt hctrl hshift hmeta hcomp
  have hc : (code == 229) = false := by
    simpa using hcode
  constructor <;>
    · unfold on_keydown
      simp only [hc, Bool.or_false, modifiers_from_event]
      decide

/-- C3: a keydown flagged as composing, or carrying key code 229,
enqueues zero events. -/
theorem claim_C3_composition_discard (event : KeyboardEvent)
    (agent_hidden : Bool)
    (h : event.is_composing = true ∨ event.key_code = 229) :
    on_keydown event agent_hidden = [] := by
  unfold on_keydown
  rcases h with h | h <;> simp [h]

theorem claim_C3_witness :
    on_keydown ⟨"a", 229, false, false, false, false, false⟩ true = [] :=
  claim_C3_composition_discard _ true (Or.inr rfl)

/-- C5: sends on an empty channel drain back in FIFO order, a second
drain is empty, and in general a send only appends at the back (the
channel never reorders or drops). -/
theorem claim_C5_channel_fifo (e1 e2 e3 : ChannelItem) :
    Channel.drainAll (Channel.send (Channel.send (Channel.send [] e1) e2) e3)
      = ([e1, e2, e3], []) ∧
    Channel.drainAll
      (Channel.drainAll
        (Channel.send (Channel.send (Channel.send [] e1) e2) e3)).2
      = ([], []) ∧
    (∀ es : List ChannelItem,
      Channel.drainAll (es.foldl Channel.send []) = (es, [])) := by
  refine ⟨rfl, rfl, fun es => ?_⟩
  simp [Channel.drainAll, sends_foldl]

/-- C6: `translate_key` is pure and deterministic, maps each letter's
lowercase and uppercase spellings to the same (present) key, and yields
`none` outside the supported set. -/
theorem claim_C6_translate_key :
    (∀ k : String, translate_key k = translate_key k) ∧
    (∀ p ∈ letterCasePairs,
      translate_key p.1 = translate_key p.2 ∧ (translate_key p.1).isSome) ∧
    (∀ k : String, k ∉ supportedKeyNames → translate_key k = none) := by
  refine ⟨fun _ => rfl, by decide, fun k h => ?_⟩
  by_contra hne
  exact h (translate_key_isSome_mem k (Option.ne_none_iff_isSome.mp hne))

theorem claim_C6_witness :
    translate_key "z" = translate_key "Z" ∧ translate_key "Numpad5" = none :=
  ⟨(claim_C6_translate_key.2.1 ("z", "Z") (by decide)).1,
   claim_C6_translate_key.2.2 "Numpad5" (by decide)⟩

/-- C7 counterexample: `"Fn"` is not among F1–F12 nor in the named
ignore list, yet `should_ignore_key` returns `true` for it (any string
starting with `F` of length > 1 is treated as a function key). -/
theorem claim_C7_counterexample :
    should_ignore_key "Fn" = true ∧ "Fn" ∉ claimedIgnoreList := by
  decide

/-- C7 (amended): `should_ignore_key` returns `true` exactly for
strings starting with `F` of UTF-8 byte length greater than one,
together with the named navigation/editing/modifier key names; it
returns `false` for every other key string. -/
theorem claim_C7_amended (key : String) :
    should_ignore_key key = true ↔
      (starts_with_F key = true ∧ 1 < key.utf8ByteSize) ∨
        key ∈ namedIgnoreKeys := by
  have hnamed : is_named_ignore_key key = true ↔ key ∈ namedIgnoreKeys :=
    ⟨is_named_ignore_key_mem key, mem_is_named_ignore_key key⟩
  simp [should_ignore_key, hnamed, Bool.or_eq_true, Bool.and_eq_true,
    decide_eq_true_iff]

theorem claim_C2_witness :
    on_keydown ⟨"a", 65, false, false, false, false, false⟩ true =
      [(some (Event.key Key.A (some Key.A) true
        ⟨false, false, false, false, false⟩ false), none),
       (some (Event.text "a"), none)] ∧
    on_keydown ⟨"a", 65, false, false, false, false, false⟩ false =
      [(some (Event.key Key.A (some Key.A) true
        ⟨false, false, false, false, false⟩ false), none)] :=
  claim_C2_keydown_a ⟨"a", 65, false, false, false, false, false⟩
    rfl rfl rfl rfl rfl rfl (by decide)

/-- C1 counterexample: for the captured value `"ab"` (non-empty,
multi-character, not composing) the claim says the value is left
untouched; the code clears it (the clear happens before the length
test).  Nothing is forwarded, but the value afterwards is `""`, not
`"ab"`. -/
theorem claim_C1_counterexample :
    (on_input false { value := "ab" }).2 = [] ∧
    ¬ (on_input false { value := "ab" }).1.value = "ab" ∧
    (on_input false { value := "ab" }).1.value = "" := by
  decide

/-- C1 (amended): whenever the captured value is non-empty and the
composing flag is false, the value is cleared immediately — regardless
of its length — and a `Text` event carrying the value is forwarded
exactly when the value is one UTF-8 byte long; longer values are not
forwarded. -/
theorem claim_C1_on_input (is_composing : Bool) (input : InputElement)
    (hne : input.value.isEmpty = false) (hc : is_composing = false) :
    (on_input is_composing input).1.value = "" ∧
    (on_input is_composing input).2 =
      (if input.value.utf8ByteSize = 1 then
        [(some (Event.text input.value), none)]
      else []) := by
  subst hc
  unfold on_input
  by_cases h1 : input.value.utf8ByteSize = 1 <;> simp [hne, h1]

theorem claim_C1_witness :
    (on_input false { value := "x" }).1.value = "" ∧
    (on_input false { value := "x" }).2 =
      (if ("x" : String).utf8ByteSize = 1 then
        [(some (Event.text "x"), none)]
      else []) :=
  claim_C1_on_input false { value := "x" } (by decide) rfl

/-- C10: the `on_input` single-character test counts UTF-8 bytes: for a
non-empty, non-composing value a `Text` event is sent exactly when the
value is one byte long, and every multi-byte value (in particular any
single non-ASCII character) is cleared with no event sent. -/
theorem claim_C10_byte_length (input : InputElement)
    (hne : input.value.isEmpty = false) :
    ((on_input false input).2 ≠ [] ↔ input.value.utf8ByteSize = 1) ∧
    (1 < input.value.utf8ByteSize →
      (on_input false input).1.value = "" ∧ (on_input false input).2 = []) := by
  unfold on_input
  by_cases h1 : input.value.utf8ByteSize = 1 <;> simp [hne, h1]

theorem claim_C10_witness :
    ((on_input false { value := "é" }).2 ≠ [] ↔
      ("é" : String).utf8ByteSize = 1) ∧
    (1 < ("é" : String).utf8ByteSize →
      (on_input false { value := "é" }).1.value = "" ∧
      (on_input false { value := "é" }).2 = []) :=
  claim_C10_byte_length { value := "é" } (by decide)

/-- C4: `propagate_text` drains the channel only at the first focused
context, appends every drained GUI event to that context's input
events, leaves earlier (unfocused) and later contexts untouched,
requests a redraw whenever the drained batch is non-empty, and does not
drain at all when no context is focused. -/
theorem claim_C4_propagate (pre post : List EguiContext) (c : EguiContext)
    (queue : List ChannelItem)
    (hpre : ∀ x ∈ pre, x.focused = false) (hc : c.focused = true) :
    propagate_text (pre ++ c :: post) queue =
      (pre ++ { c with events := c.events ++ drained_events queue } :: post,
       [], !queue.isEmpty) ∧
    (drained_events queue ≠ [] →
      (propagate_text (pre ++ c :: post) queue).2.2 = true) ∧
    (∀ cs : List EguiContext, (∀ x ∈ cs, x.focused = false) →
      propagate_text cs queue = (cs, queue, false)) := by
  refine ⟨propagate_text_first_focused pre c post queue hpre hc, ?_,
    fun cs h => propagate_text_no_focus cs queue h⟩
  intro hne
  rw [propagate_text_first_focused pre c post queue hpre hc]
  cases queue with
  | nil => exact absurd rfl hne
  | cons q qs => rfl

theorem claim_C4_witness :
    propagate_text
      [{ focused := false, events := [] }, { focused := true, events := [] }]
      [(some (Event.text "a"), none)] =
      ([{ focused := false, events := [] },
        { focused := true, events := [Event.text "a"] }], [], true) := by
  have h := (claim_C4_propagate [{ focused := false, events := [] }] []
    { focused := true, events := [] } [(some (Event.text "a"), none)]
    (by decide) rfl).1
  simpa [drained_events] using h

/-- C8: the canvas-shift computation of `update_text_agent`: a touch at
0.6 of the window height (threshold 0.4, target 0.3) yields a canvas
top of −30%; for every touch fraction the computed shift percentage is
clamped to at least −40; and on restore (not editing) the canvas top is
reset to 0%. -/
theorem claim_C8_canvas_shift :
    update_text_agent true (some ⟨12, 60⟩) true 100 (some true) =
      TopStyle.percent (-30) ∧
    (∀ current_rel : ℚ, -40 ≤ canvas_shift_percent current_rel) ∧
    (∀ (pos : Option Pos2) (hidden : Bool) (wh : ℚ) (mob : Option Bool),
      update_text_agent false pos hidden wh mob = TopStyle.percent 0) := by
  refine ⟨?_, ?_, fun pos hidden wh mob => rfl⟩
  · unfold update_text_agent
    norm_num [keyboard_fraction, canvas_shift_percent, canvas_shift_delta,
      target_rel, round_eq]
  · intro current_rel
    have hδ : -keyboard_fraction ≤ canvas_shift_delta current_rel :=
      le_max_right _ _
    have h2 : (-40 : ℚ) ≤ canvas_shift_delta current_rel * 100 := by
      have hk : -keyboard_fraction * 100 = (-40 : ℚ) := by
        norm_num [keyboard_fraction]
      nlinarith [hδ]
    unfold canvas_shift_percent
    rw [round_eq]
    refine Int.le_floor.mpr ?_
    push_cast
    linarith

/-- C9: `move_text_cursor` clamps the applied agent position: the top
coordinate never exceeds the canvas client height minus the agent's
bounding-rect height, the left coordinate never exceeds client width
minus bounding-rect width; at client height 500, rect height 30 and
requested cursor Y 490 the applied top is 470. -/
theorem claim_C9_cursor_clamp (ime : Pos2) (canvas : CanvasGeometry)
    (rect : BoundingRect) :
    (∀ applied ∈ move_text_cursor (some false) (some ime) canvas rect,
      applied.1 ≤ canvas.client_height - rect.height ∧
      applied.2 ≤ canvas.client_width - rect.width) ∧
    move_text_cursor (some false) (some ⟨0, 490⟩)
      { scroll_top := 0, offset_top := 0, scroll_left := 0, offset_left := 0,
        client_width := 800, client_height := 500 }
      { width := 10, height := 30 } = some (470, 0) := by
  constructor
  · intro applied happ
    simp [move_text_cursor, Option.mem_def] at happ
    subst happ
    exact ⟨min_le_right _ _, min_le_right _ _⟩
  · simp [move_text_cursor]
    norm_num [min_def]

theorem claim_C9_witness :
    (470 : ℚ) ≤ 500 - 30 ∧ (0 : ℚ) ≤ 800 - 10 := by
  have h := claim_C9_cursor_clamp ⟨0, 490⟩
    { scroll_top := 0, offset_top := 0, scroll_left := 0, offset_left := 0,
      client_width := 800, client_height := 500 }
    { width := 10, height := 30 }
  exact h.1 (470, 0) (Option.mem_def.mpr h.2)

end TextAgent
